import Mathlib

/-!
# Verification of the gocryptotrader Deribit websocket adapter

Shallow embedding of `exchanges/deribit/deribit_websocket.go` (subscription
reconciliation, orderbook message processing, the websocket read loop and
connect sequence) together with a model of the stream `Match` correlator,
with theorems checking the natural-language specification against the code.
-/

set_option autoImplicit false

namespace GCT

/-- A JSON value as far as the adapter inspects it: the Go code only ever
type-asserts payload cells to `float64` or `string`; everything else (maps,
arrays, booleans, null) lands in the failure branch of the assertion.
Numbers are modelled as rationals since the code only compares them to 0. -/
inductive JVal where
  | num (q : ℚ)
  | str (s : String)
  | other
  deriving DecidableEq, Repr

/-- Error values surfaced by the adapter; the precise Go error strings are
abstracted to constructors, keeping which distinct error is produced where. -/
inductive WsErr where
  /-- json.Unmarshal failure on the inbound frame -/
  | parseFailure
  /-- errMalformedData (possibly wrapped with a message) -/
  | malformedData
  /-- failure to hand an id-correlated frame to the Match correlator -/
  | routingFailure (id : Int)
  /-- error from getAssetPairByInstrument -/
  | unknownInstrument (s : String)
  /-- websocket.ErrSubscriptionFailure -/
  | subscriptionFailure
  /-- per-channel failure "<sub> failed to <method>" -/
  | subFailed (channel : String)
  /-- "unexpected channel %q in result" -/
  | unexpectedChannel (channel : String)
  /-- any other error routed through, tagged by origin -/
  | other (s : String)
  deriving DecidableEq, Repr

/-! ## Message correlator (`Match`)

The `Match` implementation lives in the stream package, which is not part of
the sources here; only its test `stream_match_test.go` is.  Modelled from the
spec: the correlator keeps at most one pending waiter per identifier;
`Set`/`Register` fails on a duplicate identifier, `Incoming`/`Deliver` hands
the payload to the waiter and removes the entry (returning whether a waiter
was found), and `Cleanup` removes a registration idempotently. -/
structure Match (α : Type) where
  pending : List α
  deriving Repr, DecidableEq

/-- Modelled from the spec: a fresh correlator with no outstanding waiters
(`NewMatch`). -/
def Match.new (α : Type) : Match α := ⟨[]⟩

/-- Modelled from the spec: `Set`/`Register` fails with a duplicate-identifier
error when a waiter is already outstanding for `sig`, otherwise records the
registration. -/
def Match.set {α : Type} [DecidableEq α] (m : Match α) (sig : α) :
    Except WsErr (Match α) :=
  if sig ∈ m.pending then .error (.other "duplicate identifier")
  else .ok ⟨sig :: m.pending⟩

/-- Modelled from the spec: `Incoming`/`IncomingWithData`/`Deliver` looks up
the outstanding waiter for `sig`; if found it consumes the registration and
reports `true`, otherwise it leaves the state unchanged and reports `false`. -/
def Match.incoming {α : Type} [DecidableEq α] (m : Match α) (sig : α) :
    Bool × Match α :=
  if sig ∈ m.pending then (true, ⟨m.pending.erase sig⟩) else (false, m)

/-- Modelled from the spec: `Cleanup` removes the registration for `sig`;
safe and idempotent when none is outstanding. -/
def Match.cleanup {α : Type} [DecidableEq α] (m : Match α) (sig : α) :
    Match α :=
  ⟨m.pending.erase sig⟩

/-! ## Orderbook message processing (`processOrderbook`)

`processOrderbook(respRaw, channels)` in `deribit_websocket.go` unmarshals the
frame into `wsOrderbook` and then parses the ask/bid levels.  The frame is
modelled already unmarshalled (`OBData`); timestamps and the exchange name,
which are copied verbatim into the book and inspected nowhere, are elided.
The store calls `LoadSnapshot`/`Update` live in the orderbook package outside
these sources, so the function returns the book action it would invoke (or
`none` when it returns without touching the store). -/

/-- An orderbook price level as constructed by the adapter. -/
structure Level where
  price : ℚ
  amount : ℚ
  deriving DecidableEq, Repr

/-- The `wsOrderbook` payload fields the code reads: instrument name, the
`Type` discriminator, raw ask/bid rows (arrays of JSON values) and the
change id. -/
structure OBData where
  instrumentName : String
  typ : String
  asks : List (List JVal)
  bids : List (List JVal)
  changeID : Int
  deriving DecidableEq, Repr

/-- The book handed to `LoadSnapshot`/`Update` (claim-relevant fields). -/
structure Book where
  pair : String
  assetItem : String
  asks : List Level
  bids : List Level
  updateID : Int
  deriving DecidableEq, Repr

/-- The store operation `processOrderbook` invokes. -/
inductive BookAction where
  | loadSnapshot (b : Book)
  | update (b : Book)
  deriving DecidableEq, Repr

/-- Ask-level loop of the 3-segment (`book.{instrument}.{interval}`) path:
arity must be 3, cell 1 is the price, cell 2 the amount, both must be
`float64`; no zero-price filtering is performed on this side.  The Go code
wraps the three failure modes around the same `errMalformedData` sentinel, so
they collapse to one error value here. -/
def processAsks3 : List (List JVal) → Except WsErr (List Level)
  | [] => .ok []
  | lvl :: rest =>
    match lvl with
    | [_, JVal.num price, JVal.num amount] =>
      (processAsks3 rest).map (fun ls => Level.mk price amount :: ls)
    | [_, JVal.num _, _] => .error .malformedData
    | [_, _, _] => .error .malformedData
    | _ => .error .malformedData

/-- Bid-level loop of the 3-segment path: as `processAsks3`, but a level whose
price is 0 is skipped with `continue` immediately after the price assertion,
before the amount cell is ever type-checked. -/
def processBids3 : List (List JVal) → Except WsErr (List Level)
  | [] => .ok []
  | lvl :: rest =>
    match lvl with
    | [_, JVal.num price, amt] =>
      if price = 0 then processBids3 rest
      else
        match amt with
        | JVal.num amount =>
          (processBids3 rest).map (fun ls => Level.mk price amount :: ls)
        | _ => .error .malformedData
    | [_, _, _] => .error .malformedData
    | _ => .error .malformedData

/-- Ask-level loop of the 5-segment
(`book.{instrument}.{group}.{depth}.{interval}`) path: arity must be 2,
cell 0 the price, cell 1 the amount; a zero-price level is skipped right
after the price assertion. -/
def processAsks5 : List (List JVal) → Except WsErr (List Level)
  | [] => .ok []
  | lvl :: rest =>
    match lvl with
    | [JVal.num price, amt] =>
      if price = 0 then processAsks5 rest
      else
        match amt with
        | JVal.num amount =>
          (processAsks5 rest).map (fun ls => Level.mk price amount :: ls)
        | _ => .error .malformedData
    | [_, _] => .error .malformedData
    | _ => .error .malformedData

/-- Bid-level loop of the 5-segment path; textually identical to the ask loop
in the source, repeated here to mirror the two separate loops. -/
def processBids5 : List (List JVal) → Except WsErr (List Level)
  | [] => .ok []
  | lvl :: rest =>
    match lvl with
    | [JVal.num price, amt] =>
      if price = 0 then processBids5 rest
      else
        match amt with
        | JVal.num amount =>
          (processBids5 rest).map (fun ls => Level.mk price amount :: ls)
        | _ => .error .malformedData
    | [_, _] => .error .malformedData
    | _ => .error .malformedData

/-- Environment for the handlers: `getAssetPairByInstrument` resolves an
instrument name into a currency pair and asset item (both rendered as plain
strings here), plus the trade-handling feature flags read by
`processTrades`. -/
structure WsEnv where
  resolve : String → Except WsErr (String × String)
  tradeFeed : Bool
  saveTradeData : Bool
  pingSendErr : Option WsErr

/-- `processOrderbook`: resolves the instrument, parses both sides with the
shape dictated by the channel arity (3 or 5 segments), returns without a
store call when both parsed sides are empty, and otherwise loads a snapshot
or applies an update according to the `Type` field (3-segment) or always
loads a snapshot (5-segment).  Any other channel arity falls through the two
branches and returns nil. -/
def processOrderbook (env : WsEnv) (ob : OBData) (channels : List String) :
    Except WsErr (Option BookAction) :=
  if channels.length = 3 then
    match env.resolve ob.instrumentName with
    | .error e => .error e
    | .ok (cp, a) =>
      match processAsks3 ob.asks with
      | .error e => .error e
      | .ok asks =>
        match processBids3 ob.bids with
        | .error e => .error e
        | .ok bids =>
          if asks.length = 0 ∧ bids.length = 0 then .ok none
          else if ob.typ = "snapshot" then
            .ok (some (.loadSnapshot ⟨cp, a, asks, bids, ob.changeID⟩))
          else if ob.typ = "change" then
            .ok (some (.update ⟨cp, a, asks, bids, ob.changeID⟩))
          else .ok none
  else if channels.length = 5 then
    match env.resolve ob.instrumentName with
    | .error e => .error e
    | .ok (cp, a) =>
      match processAsks5 ob.asks with
      | .error e => .error e
      | .ok asks =>
        match processBids5 ob.bids with
        | .error e => .error e
        | .ok bids =>
          if asks.length = 0 ∧ bids.length = 0 then .ok none
          else .ok (some (.loadSnapshot ⟨cp, a, asks, bids, ob.changeID⟩))
  else .ok none

/-- Input for the concrete C2 run: a 3-segment snapshot with one zero-price
bid and one real bid. -/
def obC2 : OBData :=
  { instrumentName := "BTC-PERPETUAL"
    typ := "snapshot"
    asks := [[JVal.str "new", JVal.num 101, JVal.num 1]]
    bids := [[JVal.str "new", JVal.num 0, JVal.num 7],
             [JVal.str "new", JVal.num 99, JVal.num 2]]
    changeID := 11 }

/-- A resolver accepting every instrument, used by the concrete runs. -/
def envC : WsEnv :=
  { resolve := fun s => .ok (s, "futures")
    tradeFeed := true
    saveTradeData := true
    pingSendErr := none }

/-- Book produced by `processOrderbook` on `obC2`. -/
def bookC2 : Book :=
  { pair := "BTC-PERPETUAL"
    assetItem := "futures"
    asks := [Level.mk 101 1]
    bids := [Level.mk 99 2]
    updateID := 11 }

/-! ## The read loop (`wsReadData` / `wsHandleData`)

`wsHandleData` unmarshals the frame into `WsResponse`, answers heartbeats,
routes id-correlated frames to the Match correlator and dispatches the rest
by the dot-separated channel path.  Frames are modelled as either malformed
(json.Unmarshal fails) or an already-parsed envelope.  The typed payload
decoding inside the individual channel handlers always produces an event for
the data handler here (decode and per-entry instrument resolution of the
non-book handlers is not load-bearing for the claims and is abstracted to a
single pushed event); the control flow around it — arity checks, instrument
resolution of the path segment, Go panics on out-of-range segment indexing —
is kept. -/

/-- The envelope fields `wsHandleData` reads, with the book payload already
decoded. -/
structure WsResponse where
  id : Int
  method : String
  channel : String
  result : JVal
  ob : OBData
  deriving DecidableEq, Repr

/-- An inbound frame: either one that fails `json.Unmarshal`, or a parsed
envelope. -/
inductive Frame where
  | malformed
  | parsed (r : WsResponse)
  deriving DecidableEq, Repr

/-- Events the handlers emit to `Websocket.DataHandler` (payload contents
abstracted to their kind). -/
inductive Payload where
  | announcement
  | candle
  | typedData (channel : String)
  | quoteTicker
  | tickerPrice
  | incTicker
  | trades
  | changes
  | orders
  | mmpTrigger (ccy : String)
  | warning
  | pushedErr (e : WsErr)
  deriving DecidableEq, Repr

/-- Observable effects of processing one frame, in program order. -/
inductive WsAction where
  | sendPing
  | deliver (id : Int)
  | push (p : Payload)
  | book (act : BookAction)
  deriving DecidableEq, Repr

/-- Outcome of `wsHandleData`: a returned error value, or a Go runtime panic
(out-of-range channel-segment indexing). -/
inductive HOut where
  | ok
  | err (e : WsErr)
  | panicked
  deriving DecidableEq, Repr

/-- `processData`: unmarshal the typed payload and push it (decode modelled
as succeeding on a parsed frame). -/
def processData (p : Payload) : List WsAction × HOut :=
  ([.push p], .ok)

/-- `processCandleChart`: requires exactly 4 segments, resolves the
instrument embedded at segment 2, then pushes the kline event. -/
def processCandleChart (env : WsEnv) (channels : List String) :
    List WsAction × HOut :=
  if channels.length ≠ 4 then ([], .err .malformedData)
  else
    match env.resolve (channels.getD 2 "") with
    | .error e => ([], .err e)
    | .ok _ => ([.push .candle], .ok)

/-- `processQuoteTicker`: resolves segment 1 with no arity check first — a
channel with a single segment makes the Go code index out of range. -/
def processQuoteTicker (env : WsEnv) (channels : List String) :
    List WsAction × HOut :=
  match channels.get? 1 with
  | none => ([], .panicked)
  | some inst =>
    match env.resolve inst with
    | .error e => ([], .err e)
    | .ok _ => ([.push .quoteTicker], .ok)

/-- `processTrades`: nothing to do unless a trade feature flag is on; then
3–5 segments are required and the decoded trades are pushed/buffered. -/
def processTrades (env : WsEnv) (channels : List String) :
    List WsAction × HOut :=
  if ¬env.tradeFeed ∧ ¬env.saveTradeData then ([], .ok)
  else if channels.length < 3 ∨ 5 < channels.length then
    ([], .err .malformedData)
  else ([.push .trades], .ok)

/-- `processIncrementalTicker`: exactly 2 segments, instrument at
segment 1. -/
def processIncrementalTicker (env : WsEnv) (channels : List String) :
    List WsAction × HOut :=
  if channels.length ≠ 2 then ([], .err .malformedData)
  else
    match env.resolve (channels.getD 1 "") with
    | .error e => ([], .err e)
    | .ok _ => ([.push .incTicker], .ok)

/-- `processTicker`: resolves segment 1 and pushes the ticker price. -/
def processTicker (env : WsEnv) (channels : List String) :
    List WsAction × HOut :=
  match channels.get? 1 with
  | none => ([], .panicked)
  | some inst =>
    match env.resolve inst with
    | .error e => ([], .err e)
    | .ok _ => ([.push .tickerPrice], .ok)

/-- `processInstrumentTicker`: 3 segments exactly, then `processTicker`. -/
def processInstrumentTicker (env : WsEnv) (channels : List String) :
    List WsAction × HOut :=
  if channels.length ≠ 3 then ([], .err .malformedData)
  else processTicker env channels

/-- `processUserOrders`: 4 or 5 segments, then the decoded orders are
pushed. -/
def processUserOrders (channels : List String) : List WsAction × HOut :=
  if channels.length ≠ 4 ∧ channels.length ≠ 5 then ([], .err .malformedData)
  else ([.push .orders], .ok)

/-- `processUserOrderChanges`: between 4 and 5 segments, then the decoded
trades/orders/positions are pushed. -/
def processUserOrderChanges (channels : List String) : List WsAction × HOut :=
  if channels.length < 4 ∨ 5 < channels.length then ([], .err .malformedData)
  else ([.push .changes], .ok)

/-- Character-level worker for `splitDots`. -/
def splitDotsChars : List Char → List (List Char)
  | [] => [[]]
  | c :: rest =>
    match splitDotsChars rest with
    | [] => [[]]
    | w :: ws => if c = '.' then [] :: w :: ws else (c :: w) :: ws

/-- `strings.Split(channel, ".")`: splits at every dot; the empty string
yields the singleton list of the empty string, so the result is never
empty. -/
def splitDots (s : String) : List String :=
  (splitDotsChars s.data).map (fun w => String.mk w)

/-- Second-level dispatch of the `user` namespace on segment 1 (the Go code
indexes `channels[1]` unconditionally, and `channels[2]` for
`mmp_trigger`). -/
def dispatchUser (env : WsEnv) (channels : List String) :
    List WsAction × HOut :=
  match channels.get? 1 with
  | none => ([], .panicked)
  | some s2 =>
    if s2 = "access_log" then processData (.typedData "user.access_log")
    else if s2 = "changes" then processUserOrderChanges channels
    else if s2 = "lock" then processData (.typedData "user.lock")
    else if s2 = "mmp_trigger" then
      match channels.get? 2 with
      | none => ([], .panicked)
      | some ccy => processData (.mmpTrigger ccy)
    else if s2 = "orders" then processUserOrders channels
    else if s2 = "portfolio" then processData (.typedData "user.portfolio")
    else if s2 = "trades" then processTrades env channels
    else ([.push .warning], .ok)

/-- First-level channel dispatch of `wsHandleData` (the Go `switch` on
`channels[0]` with its `default` arm switching on the type of `Result`). -/
def dispatchChannel (env : WsEnv) (r : WsResponse) : List WsAction × HOut :=
  let channels := splitDots r.channel
  let c0 := channels.headD ""
  if c0 = "announcements" then processData .announcement
  else if c0 = "book" then
    match processOrderbook env r.ob channels with
    | .error e => ([], .err e)
    | .ok none => ([], .ok)
    | .ok (some act) => ([.book act], .ok)
  else if c0 = "chart" then processCandleChart env channels
  else if c0 = "deribit_price_index" then processData (.typedData c0)
  else if c0 = "deribit_price_ranking" then processData (.typedData c0)
  else if c0 = "deribit_price_statistics" then processData (.typedData c0)
  else if c0 = "deribit_volatility_index" then processData (.typedData c0)
  else if c0 = "estimated_expiration_price" then processData (.typedData c0)
  else if c0 = "incremental_ticker" then processIncrementalTicker env channels
  else if c0 = "instrument" then processData (.typedData c0)
  else if c0 = "markprice" then processData (.typedData c0)
  else if c0 = "perpetual" then processData (.typedData c0)
  else if c0 = "platform_state" then processData (.typedData c0)
  else if c0 = "quote" then processQuoteTicker env channels
  else if c0 = "rfq" then processData (.typedData c0)
  else if c0 = "ticker" then processInstrumentTicker env channels
  else if c0 = "trades" then processTrades env channels
  else if c0 = "user" then dispatchUser env channels
  else if c0 = "public/test" ∨ c0 = "public/set_heartbeat" then ([], .ok)
  else
    match r.result with
    | .str s => if s = "ok" then ([], .ok) else ([], .ok)
    | _ => ([.push .warning], .ok)

/-- `wsHandleData`: parse failure is an error; a `heartbeat` method frame is
answered with the fire-and-forget ping before anything else; a frame with id
above the reserved 1/2 range goes to the Match correlator (failure to match
is the returned routing error); ids 1 and 2 are swallowed; everything else is
dispatched by channel path. -/
def wsHandleData (env : WsEnv) (m : Match Int) (f : Frame) :
    Match Int × List WsAction × HOut :=
  match f with
  | .malformed => (m, [], .err .parseFailure)
  | .parsed r =>
    if r.method = "heartbeat" then
      (m, [.sendPing],
        match env.pingSendErr with
        | none => .ok
        | some e => .err e)
    else if 2 < r.id then
      let res := m.incoming r.id
      if res.1 then (res.2, [.deliver r.id], .ok)
      else (res.2, [.deliver r.id], .err (.routingFailure r.id))
    else if 0 < r.id then (m, [], .ok)
    else
      let d := dispatchChannel env r
      (m, d.1, d.2)

/-- `wsReadData`: frames are handled strictly in arrival order; an error
returned by `wsHandleData` is pushed to the data handler and the loop
continues with the next frame; a panic kills the read goroutine, so no later
frame is processed.  The result is the ordered trace of effects. -/
def readTrace (env : WsEnv) : Match Int → List Frame → List WsAction
  | _, [] => []
  | m, f :: rest =>
    let step := wsHandleData env m f
    match step.2.2 with
    | .ok => step.2.1 ++ readTrace env step.1 rest
    | .err e => step.2.1 ++ .push (.pushedErr e) :: readTrace env step.1 rest
    | .panicked => step.2.1

/-- An empty book payload, for frames on non-book channels. -/
def obEmpty : OBData := ⟨"", "", [], [], 0⟩

/-! ## `WsConnect`

Collaborator results (dial, the login exchange, the heartbeat-setup send) are
inputs; the function's own control flow is from the source. -/

/-- Inputs of one `WsConnect` call: feature switches and what each
collaborator call would return. -/
structure ConnEnv where
  wsEnabled : Bool
  exchangeEnabled : Bool
  dialErr : Option WsErr
  canUseAuth : Bool
  loginErr : Option WsErr
  heartbeatSendErr : Option WsErr

/-- Observable outcome of `WsConnect`: the returned error, whether the read
goroutine was started, and the authenticated-endpoints flag afterwards. -/
structure ConnResult where
  returned : Option WsErr
  readLoopStarted : Bool
  canUseAuthAfter : Bool
  deriving DecidableEq, Repr

/-- `WsConnect`: refuses when the websocket or exchange is disabled, dials,
starts the read goroutine, attempts the login exchange when authenticated
endpoints are usable — on login failure it logs and flips the flag off
without returning — and finally sends the heartbeat-setup message, returning
that send's result.  (`wsLogin` itself sets the flag to true mid-exchange on
its success path, so a successful login leaves it on.) -/
def WsConnect (env : ConnEnv) : ConnResult :=
  if ¬env.wsEnabled ∨ ¬env.exchangeEnabled then
    ⟨some (.other "websocket not enabled"), false, env.canUseAuth⟩
  else
    match env.dialErr with
    | some e => ⟨some e, false, env.canUseAuth⟩
    | none =>
      if env.canUseAuth then
        match env.loginErr with
        | some _ => ⟨env.heartbeatSendErr, true, false⟩
        | none => ⟨env.heartbeatSendErr, true, true⟩
      else ⟨env.heartbeatSendErr, true, env.canUseAuth⟩

/-! ## Subscription reconciliation (`handleSubscription`)

A subscription is represented by its qualified wire channel string (the only
field the reconciliation reads).  `AddSuccessfulSubscriptions` and
`RemoveSubscriptions` live in the websocket package outside these sources;
modelled from the spec ("marked active on acknowledgement"), they become
registry operations that succeed.  Go iterates the leftover
acknowledgement map in unspecified order; here the leftovers keep their
arrival order, which only fixes one of the orders Go may produce — the
theorems use membership and emptiness, never that order. -/

/-- A registry mutation: mark a qualified channel active or retire it. -/
inductive RegOp where
  | add (channel : String)
  | remove (channel : String)
  deriving DecidableEq, Repr

/-- The reconciliation loop over the requested channels: an acknowledged
channel is consumed from the remaining-acknowledgement set and becomes a
registry operation in the direction of the call; a requested channel not in
the set contributes its per-channel failure; leftovers become
unexpected-channel errors. -/
def reconcileLoop (isUnsub : Bool) :
    List String → List String → List WsErr × List RegOp
  | [], remAck => (remAck.map (fun c => WsErr.unexpectedChannel c), [])
  | s :: rest, remAck =>
    if s ∈ remAck then
      let r := reconcileLoop isUnsub rest (remAck.erase s)
      (r.1, (if isUnsub then RegOp.remove s else RegOp.add s) :: r.2)
    else
      let r := reconcileLoop isUnsub rest remAck
      (WsErr.subFailed s :: r.1, r.2)

/-- Acknowledgement reconciliation of `handleSubscription`: the server's
result list is collapsed into a set (the Go `subAck` map), a cardinality
mismatch with the request list seeds the aggregate with
`ErrSubscriptionFailure`, and the loop appends the per-channel failures and
unexpected-channel errors.  The aggregate error is the (possibly empty) list
of combined errors, empty playing the role of nil. -/
def handleSubscriptionReconcile (isUnsub : Bool) (subs ack : List String) :
    List WsErr × List RegOp :=
  let subAck := ack.dedup
  let lenErr : List WsErr :=
    if subAck.length ≠ subs.length then [.subscriptionFailure] else []
  let r := reconcileLoop isUnsub subs subAck
  (lenErr ++ r.1, r.2)

/-- `handleSubscription` around the reconciliation: an empty expanded list
returns immediately, a failed request or unparsable response is returned as
is, otherwise the acknowledgement is reconciled.  (`ExpandTemplates` is the
adapter's template expansion; `subs` is the expanded list of qualified
channels, and the request/unmarshal outcome is the `sendResult` input.) -/
def handleSubscription (isUnsub : Bool) (subs : List String)
    (sendResult : Except WsErr (List String)) : List WsErr × List RegOp :=
  if subs.length = 0 then ([], [])
  else
    match sendResult with
    | .error e => ([e], [])
    | .ok ack => handleSubscriptionReconcile isUnsub subs ack

/-- Effect of the reconciliation's registry operations on the
active-subscription registry. -/
def applyRegOps : List RegOp → List String → List String
  | [], reg => reg
  | .add c :: rest, reg => applyRegOps rest (reg ++ [c])
  | .remove c :: rest, reg => applyRegOps rest (reg.erase c)

/-- First-level channel keys the dispatch switch recognises. -/
def knownFirstSegments : List String :=
  ["announcements", "book", "chart", "deribit_price_index",
   "deribit_price_ranking", "deribit_price_statistics",
   "deribit_volatility_index", "estimated_expiration_price",
   "incremental_ticker", "instrument", "markprice", "perpetual",
   "platform_state", "quote", "rfq", "ticker", "trades", "user",
   "public/test", "public/set_heartbeat"]

/-- Second-level keys recognised under the `user` namespace. -/
def knownUserSegments : List String :=
  ["access_log", "changes", "lock", "mmp_trigger", "orders", "portfolio",
   "trades"]

theorem Match.set_ok_iff {α : Type} [DecidableEq α] {m m' : Match α} {sig : α}
    (h : m.set sig = .ok m') : sig ∉ m.pending ∧ m'.pending = sig :: m.pending := by
  by_cases hmem : sig ∈ m.pending
  · simp [Match.set, hmem] at h
  · simp only [Match.set, hmem, if_neg, ite_false] at h
    cases h
    exact ⟨hmem, rfl⟩

/-- C6: delivering to an identifier with no outstanding registration returns
false and leaves the correlator unchanged; after a successful registration the
first delivery returns true and a second delivery with the same identifier
returns false. -/
theorem c6_deliver_at_most_once {α : Type} [DecidableEq α]
    (m : Match α) (sig : α) (hout : sig ∉ m.pending) :
    ((m.incoming sig).1 = false ∧ (m.incoming sig).2 = m) ∧
    ∀ m', m.set sig = .ok m' →
      ((m'.incoming sig).1 = true ∧
        (((m'.incoming sig).2).incoming sig).1 = false) := by
  refine ⟨by simp [Match.incoming, hout], ?_⟩
  intro m' hm'
  obtain ⟨-, hpend⟩ := Match.set_ok_iff hm'
  have h1 : sig ∈ m'.pending := by simp [hpend]
  have herase : m'.pending.erase sig = m.pending := by
    simp [hpend, List.erase_cons_head]
  refine ⟨by simp [Match.incoming, h1], ?_⟩
  simp [Match.incoming, h1, herase, hout]

/-- Concrete run of `c6_deliver_at_most_once` on the test's identifier. -/
theorem c6_deliver_at_most_once_witness :
    "hello" ∉ (Match.new String).pending ∧
      (((Match.new String).incoming "hello").1 = false ∧
        ((Match.new String).incoming "hello").2 = Match.new String) ∧
      ∀ m', (Match.new String).set "hello" = .ok m' →
        ((m'.incoming "hello").1 = true ∧
          (((m'.incoming "hello").2).incoming "hello").1 = false) := by
  have h : "hello" ∉ (Match.new String).pending := by simp [Match.new]
  exact ⟨h, c6_deliver_at_most_once (Match.new String) "hello" h⟩

/-- C7: registering an identifier that is already outstanding fails, so at
most one pending request exists per identifier; after `Cleanup` or one
successful delivery the identifier is registrable again. -/
theorem c7_register_exclusive {α : Type} [DecidableEq α]
    (m m₁ : Match α) (sig : α) (hreg : m.set sig = .ok m₁) :
    (∀ m₂, m₁.set sig ≠ .ok m₂) ∧
    (∃ m₂, (m₁.cleanup sig).set sig = .ok m₂) ∧
    (∃ m₂, ((m₁.incoming sig).2).set sig = .ok m₂) := by
  obtain ⟨hout, hpend⟩ := Match.set_ok_iff hreg
  have h1 : sig ∈ m₁.pending := by simp [hpend]
  have herase : m₁.pending.erase sig = m.pending := by
    simp [hpend, List.erase_cons_head]
  refine ⟨?_, ?_, ?_⟩
  · intro m₂
    simp [Match.set, h1]
  · refine ⟨⟨sig :: m.pending⟩, ?_⟩
    simp [Match.set, Match.cleanup, herase, hout]
  · refine ⟨⟨sig :: m.pending⟩, ?_⟩
    simp [Match.incoming, Match.set, h1, herase, hout]

/-- Concrete run of `c7_register_exclusive` on the test's identifier. -/
theorem c7_register_exclusive_witness :
    (Match.new String).set "hello" = .ok ⟨["hello"]⟩ ∧
      ((∀ m₂, (Match.mk ["hello"]).set "hello" ≠ .ok m₂) ∧
        (∃ m₂, ((Match.mk ["hello"]).cleanup "hello").set "hello" = .ok m₂) ∧
        (∃ m₂, (((Match.mk ["hello"]).incoming "hello").2).set "hello" = .ok m₂)) := by
  have h : (Match.new String).set "hello" = .ok ⟨["hello"]⟩ := by
    simp [Match.new, Match.set]
  exact ⟨h, c7_register_exclusive (Match.new String) ⟨["hello"]⟩ "hello" h⟩

theorem processBids3_no_zero {raw : List (List JVal)} {L : List Level}
    (h : processBids3 raw = .ok L) : ∀ l ∈ L, l.price ≠ 0 := by
  induction raw generalizing L with
  | nil =>
    simp only [processBids3] at h
    cases h; simp
  | cons lvl rest ih =>
    match lvl with
    | [j, JVal.num price, amt] =>
      by_cases hp : price = 0
      · simp only [processBids3, hp, if_pos, ite_true] at h
        exact ih h
      · match amt with
        | JVal.num amount =>
          simp only [processBids3, hp, ite_false] at h
          rcases hrest : processBids3 rest with e | L'
          · rw [hrest] at h; cases h
          · rw [hrest] at h
            simp only [Except.map, Except.ok.injEq] at h
            subst h
            intro l hl
            rcases List.mem_cons.mp hl with hl | hl
            · subst hl; exact hp
            · exact ih hrest l hl
        | JVal.str s => simp [processBids3, hp] at h
        | JVal.other => simp [processBids3, hp] at h
    | [j, JVal.str s, c] => simp [processBids3] at h
    | [j, JVal.other, c] => simp [processBids3] at h
    | [] => simp [processBids3] at h
    | [a] => simp [processBids3] at h
    | [a, b] => simp [processBids3] at h
    | a :: b :: c :: d :: t => simp [processBids3] at h

theorem processBids3_retain {raw : List (List JVal)} {L : List Level}
    (h : processBids3 raw = .ok L) :
    ∀ j p a, [j, JVal.num p, JVal.num a] ∈ raw → p ≠ 0 → Level.mk p a ∈ L := by
  induction raw generalizing L with
  | nil => intro j p a hmem; cases hmem
  | cons lvl rest ih =>
    intro j p a hmem hp
    rcases List.mem_cons.mp hmem with hl | hl
    · subst hl
      simp only [processBids3, hp, ite_false] at h
      rcases hrest : processBids3 rest with e | L'
      · rw [hrest] at h; cases h
      · rw [hrest] at h
        simp only [Except.map, Except.ok.injEq] at h
        subst h; exact List.mem_cons_self _ _
    · match lvl with
      | [j', JVal.num price, amt] =>
        by_cases hprice : price = 0
        · simp only [processBids3, hprice, if_pos, ite_true] at h
          exact ih h j p a hl hp
        · match amt with
          | JVal.num amount =>
            simp only [processBids3, hprice, ite_false] at h
            rcases hrest : processBids3 rest with e | L'
            · rw [hrest] at h; cases h
            · rw [hrest] at h
              simp only [Except.map, Except.ok.injEq] at h
              subst h
              exact List.mem_cons_of_mem _ (ih hrest j p a hl hp)
          | JVal.str s => simp [processBids3, hprice] at h
          | JVal.other => simp [processBids3, hprice] at h
      | [j', JVal.str s, c] => simp [processBids3] at h
      | [j', JVal.other, c] => simp [processBids3] at h
      | [] => simp [processBids3] at h
      | [a'] => simp [processBids3] at h
      | [a', b'] => simp [processBids3] at h
      | a' :: b' :: c' :: d' :: t => simp [processBids3] at h

theorem processBids5_no_zero {raw : List (List JVal)} {L : List Level}
    (h : processBids5 raw = .ok L) : ∀ l ∈ L, l.price ≠ 0 := by
  induction raw generalizing L with
  | nil =>
    simp only [processBids5] at h
    cases h; simp
  | cons lvl rest ih =>
    match lvl with
    | [JVal.num price, amt] =>
      by_cases hp : price = 0
      · simp only [processBids5, hp, if_pos, ite_true] at h
        exact ih h
      · match amt with
        | JVal.num amount =>
          simp only [processBids5, hp, ite_false] at h
          rcases hrest : processBids5 rest with e | L'
          · rw [hrest] at h; cases h
          · rw [hrest] at h
            simp only [Except.map, Except.ok.injEq] at h
            subst h
            intro l hl
            rcases List.mem_cons.mp hl with hl | hl
            · subst hl; exact hp
            · exact ih hrest l hl
        | JVal.str s => simp [processBids5, hp] at h
        | JVal.other => simp [processBids5, hp] at h
    | [JVal.str s, c] => simp [processBids5] at h
    | [JVal.other, c] => simp [processBids5] at h
    | [] => simp [processBids5] at h
    | [a] => simp [processBids5] at h
    | a :: b :: c :: t => simp [processBids5] at h

theorem processBids5_retain {raw : List (List JVal)} {L : List Level}
    (h : processBids5 raw = .ok L) :
    ∀ p a, [JVal.num p, JVal.num a] ∈ raw → p ≠ 0 → Level.mk p a ∈ L := by
  induction raw generalizing L with
  | nil => intro p a hmem; cases hmem
  | cons lvl rest ih =>
    intro p a hmem hp
    rcases List.mem_cons.mp hmem with hl | hl
    · subst hl
      simp only [processBids5, hp, ite_false] at h
      rcases hrest : processBids5 rest with e | L'
      · rw [hrest] at h; cases h
      · rw [hrest] at h
        simp only [Except.map, Except.ok.injEq] at h
        subst h; exact List.mem_cons_self _ _
    · match lvl with
      | [JVal.num price, amt] =>
        by_cases hprice : price = 0
        · simp only [processBids5, hprice, if_pos, ite_true] at h
          exact ih h p a hl hp
        · match amt with
          | JVal.num amount =>
            simp only [processBids5, hprice, ite_false] at h
            rcases hrest : processBids5 rest with e | L'
            · rw [hrest] at h; cases h
            · rw [hrest] at h
              simp only [Except.map, Except.ok.injEq] at h
              subst h
              exact List.mem_cons_of_mem _ (ih hrest p a hl hp)
          | JVal.str s => simp [processBids5, hprice] at h
          | JVal.other => simp [processBids5, hprice] at h
      | [JVal.str s, c] => simp [processBids5] at h
      | [JVal.other, c] => simp [processBids5] at h
      | [] => simp [processBids5] at h
      | [a'] => simp [processBids5] at h
      | a' :: b' :: c' :: t => simp [processBids5] at h

/-- C2: whenever `processOrderbook` hands a book to `LoadSnapshot`, no bid
level of that book has price 0, and every raw bid row of valid shape with a
nonzero price (shape per the channel arity) is retained in the book's bids. -/
theorem c2_snapshot_zero_bid_filtered (env : WsEnv) (ob : OBData)
    (channels : List String) (b : Book)
    (h : processOrderbook env ob channels = .ok (some (.loadSnapshot b))) :
    (∀ l ∈ b.bids, l.price ≠ 0) ∧
    (channels.length = 3 →
      ∀ j p a, [j, JVal.num p, JVal.num a] ∈ ob.bids → p ≠ 0 →
        Level.mk p a ∈ b.bids) ∧
    (channels.length = 5 →
      ∀ p a, [JVal.num p, JVal.num a] ∈ ob.bids → p ≠ 0 →
        Level.mk p a ∈ b.bids) := by
  unfold processOrderbook at h
  split at h
  case isTrue h3 =>
    split at h
    · cases h
    case _ cp a hres =>
      split at h
      · cases h
      case _ asks hasks =>
        split at h
        · cases h
        case _ bids hbids =>
          split at h
          · cases h
          · split at h
            case _ htyp =>
              simp only [Except.ok.injEq, Option.some.injEq,
                BookAction.loadSnapshot.injEq] at h
              subst h
              refine ⟨processBids3_no_zero hbids, fun _ => ?_, fun h5 => ?_⟩
              · exact processBids3_retain hbids
              · rw [h3] at h5; cases h5
            · split at h
              · simp at h
              · cases h
  case isFalse h3 =>
    split at h
    case isTrue h5 =>
      split at h
      · cases h
      case _ cp a hres =>
        split at h
        · cases h
        case _ asks hasks =>
          split at h
          · cases h
          case _ bids hbids =>
            split at h
            · cases h
            · simp only [Except.ok.injEq, Option.some.injEq,
                BookAction.loadSnapshot.injEq] at h
              subst h
              refine ⟨processBids5_no_zero hbids, fun hc3 => ?_, fun _ => ?_⟩
              · rw [hc3] at h5; cases h5
              · exact processBids5_retain hbids
    · cases h

/-- Concrete run of `c2_snapshot_zero_bid_filtered`: the zero-price bid is
dropped and the 99-price bid retained. -/
theorem c2_snapshot_zero_bid_filtered_witness :
    processOrderbook envC obC2 ["book", "BTC-PERPETUAL", "100ms"]
        = .ok (some (.loadSnapshot bookC2)) ∧
      ((∀ l ∈ bookC2.bids, l.price ≠ 0) ∧
        (["book", "BTC-PERPETUAL", "100ms"].length = 3 →
          ∀ j p a, [j, JVal.num p, JVal.num a] ∈ obC2.bids → p ≠ 0 →
            Level.mk p a ∈ bookC2.bids) ∧
        (["book", "BTC-PERPETUAL", "100ms"].length = 5 →
          ∀ p a, [JVal.num p, JVal.num a] ∈ obC2.bids → p ≠ 0 →
            Level.mk p a ∈ bookC2.bids)) :=
  ⟨rfl, c2_snapshot_zero_bid_filtered envC obC2 _ bookC2 rfl⟩

/-- C5 (counterexample to the claim as stated): a 5-segment book frame whose
only level is invalid (its price cell is a string) leaves both sides empty
once invalid levels are discounted, yet the operation returns the
malformed-data error instead of success: invalid levels abort, they are not
filtered. -/
theorem c5_counterexample_invalid_not_filtered :
    processOrderbook envC
        { instrumentName := "BTC-PERPETUAL", typ := "snapshot",
          asks := [[JVal.str "oops", JVal.num 1]], bids := [],
          changeID := 3 }
        ["book", "BTC-PERPETUAL", "none", "20", "100ms"]
      = .error .malformedData := by
  rfl

/-- C5 (amended): for both channel shapes, when every level parses and the
zero-price filtering leaves both the ask and the bid side empty, the
operation returns success without invoking any store operation. -/
theorem c5_empty_after_filter_noop (env : WsEnv) (ob : OBData)
    (channels : List String) (cp a : String)
    (hres : env.resolve ob.instrumentName = .ok (cp, a)) :
    (channels.length = 3 → processAsks3 ob.asks = .ok [] →
      processBids3 ob.bids = .ok [] →
      processOrderbook env ob channels = .ok none) ∧
    (channels.length = 5 → processAsks5 ob.asks = .ok [] →
      processBids5 ob.bids = .ok [] →
      processOrderbook env ob channels = .ok none) := by
  constructor
  · intro h3 hasks hbids
    simp [processOrderbook, h3, hres, hasks, hbids]
  · intro h5 hasks hbids
    have h3 : ¬ channels.length = 3 := by omega
    simp [processOrderbook, h3, h5, hres, hasks, hbids]

/-- Concrete run of `c5_empty_after_filter_noop`: a 3-segment change frame
whose only bid has price zero is a no-op. -/
theorem c5_empty_after_filter_noop_witness :
    envC.resolve "BTC-PERPETUAL" = .ok ("BTC-PERPETUAL", "futures") ∧
      (["book", "BTC-PERPETUAL", "100ms"].length = 3 ∧
        processAsks3 ([] : List (List JVal)) = .ok [] ∧
        processBids3 [[JVal.str "new", JVal.num 0, JVal.num 7]] = .ok []) ∧
      processOrderbook envC
          { instrumentName := "BTC-PERPETUAL", typ := "change", asks := [],
            bids := [[JVal.str "new", JVal.num 0, JVal.num 7]], changeID := 5 }
          ["book", "BTC-PERPETUAL", "100ms"]
        = .ok none :=
  ⟨rfl, ⟨rfl, rfl, rfl⟩,
    (c5_empty_after_filter_noop envC
        { instrumentName := "BTC-PERPETUAL", typ := "change", asks := [],
          bids := [[JVal.str "new", JVal.num 0, JVal.num 7]], changeID := 5 }
        ["book", "BTC-PERPETUAL", "100ms"] "BTC-PERPETUAL" "futures" rfl).1
      rfl rfl rfl⟩

/-- C10: zero-price filtering is asymmetric between the two book shapes: the
3-segment ask loop keeps a valid zero-price level, while the 3-segment bid
loop and both 5-segment loops skip it. -/
theorem c10_zero_price_asymmetry (j : JVal) (a : ℚ)
    (rest3 rest5 : List (List JVal)) :
    processAsks3 ([j, JVal.num 0, JVal.num a] :: rest3)
        = (processAsks3 rest3).map (fun ls => Level.mk 0 a :: ls) ∧
      processBids3 ([j, JVal.num 0, JVal.num a] :: rest3) = processBids3 rest3 ∧
      processAsks5 ([JVal.num 0, JVal.num a] :: rest5) = processAsks5 rest5 ∧
      processBids5 ([JVal.num 0, JVal.num a] :: rest5) = processBids5 rest5 := by
  refine ⟨?_, ?_, ?_, ?_⟩
  · simp [processAsks3]
  · simp [processBids3]
  · simp [processAsks5]
  · simp [processBids5]

/-- C3: a frame whose parsed method is heartbeat is answered with the ping
send as its only effect — the correlator is not touched and no channel
routing happens — and in the read loop this send (plus the push of the send
error, if any) happens strictly before any effect of the following frames. -/
theorem c3_heartbeat_inline (env : WsEnv) (m : Match Int) (r : WsResponse)
    (rest : List Frame) (hhb : r.method = "heartbeat") :
    (wsHandleData env m (.parsed r)).1 = m ∧
    (wsHandleData env m (.parsed r)).2.1 = [WsAction.sendPing] ∧
    readTrace env m (.parsed r :: rest) =
      WsAction.sendPing ::
        ((match env.pingSendErr with
          | none => []
          | some e => [WsAction.push (.pushedErr e)]) ++
          readTrace env m rest) := by
  refine ⟨by simp [wsHandleData, hhb], by simp [wsHandleData, hhb], ?_⟩
  cases hp : env.pingSendErr with
  | none => simp [readTrace, wsHandleData, hhb, hp]
  | some e => simp [readTrace, wsHandleData, hhb, hp]

/-- Concrete run of `c3_heartbeat_inline` on a heartbeat frame followed by a
book frame. -/
theorem c3_heartbeat_inline_witness :
    (⟨0, "heartbeat", "", JVal.other, obEmpty⟩ : WsResponse).method
        = "heartbeat" ∧
      ((wsHandleData envC (Match.new Int)
          (.parsed ⟨0, "heartbeat", "", JVal.other, obEmpty⟩)).1
          = Match.new Int ∧
        (wsHandleData envC (Match.new Int)
          (.parsed ⟨0, "heartbeat", "", JVal.other, obEmpty⟩)).2.1
          = [WsAction.sendPing] ∧
        readTrace envC (Match.new Int)
            (.parsed ⟨0, "heartbeat", "", JVal.other, obEmpty⟩ ::
              [.parsed ⟨0, "", "bogus", JVal.other, obEmpty⟩]) =
          WsAction.sendPing ::
            ((match envC.pingSendErr with
              | none => []
              | some e => [WsAction.push (.pushedErr e)]) ++
              readTrace envC (Match.new Int)
                [.parsed ⟨0, "", "bogus", JVal.other, obEmpty⟩])) :=
  ⟨rfl, c3_heartbeat_inline envC (Match.new Int) _ _ rfl⟩

/-- C4 (counterexample to the claim as stated): a frame carrying identifier
5 — non-zero and above the reserved 1/2 range — but parsed method
"heartbeat" is answered with the ping and never offered to the correlator,
even though a waiter for id 5 is outstanding. -/
theorem c4_counterexample_heartbeat_id :
    (wsHandleData envC ⟨[(5 : Int)]⟩
        (.parsed ⟨5, "heartbeat", "", JVal.other, obEmpty⟩)).2.1
        = [WsAction.sendPing] ∧
      WsAction.deliver 5 ∉
        (wsHandleData envC ⟨[(5 : Int)]⟩
          (.parsed ⟨5, "heartbeat", "", JVal.other, obEmpty⟩)).2.1 := by
  constructor
  · rfl
  · simp [wsHandleData, envC]

/-- C4 (amended): for frames whose parsed method is not heartbeat, an
identifier above 2 is offered to the correlator — consuming the waiter when
one exists, otherwise leaving the correlator untouched and surfacing a
routing error through the data handler while the loop continues with the
following frames — and an identifier in the reserved range 1–2 is neither
delivered nor routed by channel. -/
theorem c4_correlator_routing (env : WsEnv) (m : Match Int) (r : WsResponse)
    (rest : List Frame) (hm : r.method ≠ "heartbeat") :
    (2 < r.id →
      (wsHandleData env m (.parsed r)).2.1 = [WsAction.deliver r.id] ∧
      (r.id ∈ m.pending →
        wsHandleData env m (.parsed r)
          = (⟨m.pending.erase r.id⟩, [WsAction.deliver r.id], .ok)) ∧
      (r.id ∉ m.pending →
        wsHandleData env m (.parsed r)
            = (m, [WsAction.deliver r.id], .err (.routingFailure r.id)) ∧
          readTrace env m (.parsed r :: rest)
            = WsAction.deliver r.id ::
                WsAction.push (.pushedErr (.routingFailure r.id)) ::
                readTrace env m rest)) ∧
    (0 < r.id → r.id ≤ 2 →
      wsHandleData env m (.parsed r) = (m, [], .ok) ∧
      readTrace env m (.parsed r :: rest) = readTrace env m rest) := by
  constructor
  · intro h2
    refine ⟨?_, ?_, ?_⟩
    · by_cases hp : r.id ∈ m.pending <;>
        simp [wsHandleData, hm, h2, Match.incoming, hp]
    · intro hp
      simp [wsHandleData, hm, h2, Match.incoming, hp]
    · intro hp
      constructor
      · simp [wsHandleData, hm, h2, Match.incoming, hp]
      · simp [readTrace, wsHandleData, hm, h2, Match.incoming, hp]
  · intro h0 h2
    have hn2 : ¬ 2 < r.id := by omega
    constructor
    · simp [wsHandleData, hm, hn2, h0]
    · simp [readTrace, wsHandleData, hm, hn2, h0]

/-- Concrete run of `c4_correlator_routing`: id 7 with no waiter surfaces a
routing error and the loop goes on. -/
theorem c4_correlator_routing_witness :
    (⟨7, "", "", JVal.other, obEmpty⟩ : WsResponse).method ≠ "heartbeat" ∧
      (2 < (7 : Int) ∧
        (7 : Int) ∉ (Match.new Int).pending) ∧
      (wsHandleData envC (Match.new Int)
          (.parsed ⟨7, "", "", JVal.other, obEmpty⟩)
          = (Match.new Int, [WsAction.deliver 7],
              .err (.routingFailure 7)) ∧
        readTrace envC (Match.new Int)
            (.parsed ⟨7, "", "", JVal.other, obEmpty⟩ ::
              [.parsed ⟨0, "heartbeat", "", JVal.other, obEmpty⟩])
          = WsAction.deliver 7 ::
              WsAction.push (.pushedErr (.routingFailure 7)) ::
              readTrace envC (Match.new Int)
                [.parsed ⟨0, "heartbeat", "", JVal.other, obEmpty⟩]) :=
  ⟨by decide, ⟨by decide, by simp [Match.new]⟩,
    ((c4_correlator_routing envC (Match.new Int)
        ⟨7, "", "", JVal.other, obEmpty⟩ _ (by decide)).1
      (by decide)).2.2 (by simp [Match.new])⟩

/-- C9 (counterexample to the claim as stated): an unsolicited frame whose
channel "bogus" matches no route but whose `Result` field is the string
"ok" is swallowed silently — the handler returns nil without emitting the
unhandled-message warning (the default arm only warns when the result is not
a string). -/
theorem c9_counterexample_silent_string_result :
    wsHandleData envC (Match.new Int)
        (.parsed ⟨0, "", "bogus", JVal.str "ok", obEmpty⟩)
      = (Match.new Int, [], .ok) := by
  rfl

/-- C9 (amended): an unsolicited message with an unrecognized first channel
segment emits the unhandled-message warning and returns without error when
its result field is not a string, and returns silently without error when the
result is a string; an unrecognized second segment under the user namespace
always emits the warning and returns without error. -/
theorem c9_unrecognized_channel (env : WsEnv) (m : Match Int)
    (r : WsResponse) (c0 : String) (crest : List String)
    (hm : r.method ≠ "heartbeat") (hid : r.id ≤ 0)
    (hsplit : splitDots r.channel = c0 :: crest) :
    (c0 ∉ knownFirstSegments →
      ((∀ s, r.result ≠ .str s) →
        wsHandleData env m (.parsed r) = (m, [.push .warning], .ok)) ∧
      (∀ s, r.result = .str s →
        wsHandleData env m (.parsed r) = (m, [], .ok))) ∧
    (c0 = "user" →
      ∀ s2 t, crest = s2 :: t → s2 ∉ knownUserSegments →
        wsHandleData env m (.parsed r) = (m, [.push .warning], .ok)) := by
  have hn2 : ¬ 2 < r.id := by omega
  have hn0 : ¬ 0 < r.id := by omega
  constructor
  · intro hc0
    simp only [knownFirstSegments, List.mem_cons, List.not_mem_nil, or_false,
      not_or] at hc0
    obtain ⟨h1, h2, h3, h4, h5, h6, h7, h8, h9, h10, h11, h12, h13, h14, h15,
      h16, h17, h18, h19, h20⟩ := hc0
    constructor
    · intro hres
      cases hr : r.result with
      | num q =>
        simp [wsHandleData, dispatchChannel, hm, hn2, hn0, hsplit, h1, h2,
          h3, h4, h5, h6, h7, h8, h9, h10, h11, h12, h13, h14, h15, h16,
          h17, h18, h19, h20, hr]
      | str s => exact absurd hr (hres s)
      | other =>
        simp [wsHandleData, dispatchChannel, hm, hn2, hn0, hsplit, h1, h2,
          h3, h4, h5, h6, h7, h8, h9, h10, h11, h12, h13, h14, h15, h16,
          h17, h18, h19, h20, hr]
    · intro s hs
      by_cases hok : s = "ok" <;>
        simp [wsHandleData, dispatchChannel, hm, hn2, hn0, hsplit, h1, h2,
          h3, h4, h5, h6, h7, h8, h9, h10, h11, h12, h13, h14, h15, h16,
          h17, h18, h19, h20, hs, hok]
  · intro hc0 s2 t hcrest hsu
    simp only [knownUserSegments, List.mem_cons, List.not_mem_nil, or_false,
      not_or] at hsu
    obtain ⟨u1, u2, u3, u4, u5, u6, u7⟩ := hsu
    subst hc0 hcrest
    simp [wsHandleData, dispatchChannel, dispatchUser, hm, hn2, hn0, hsplit,
      u1, u2, u3, u4, u5, u6, u7]

/-- Concrete runs of `c9_unrecognized_channel`: an unknown first segment with
a non-string result warns; an unknown user-namespace second segment warns. -/
theorem c9_unrecognized_channel_witness :
    ((⟨0, "", "mystery.x", JVal.other, obEmpty⟩ : WsResponse).method
          ≠ "heartbeat" ∧
        splitDots "mystery.x" = ["mystery", "x"] ∧
        "mystery" ∉ knownFirstSegments ∧
        wsHandleData envC (Match.new Int)
            (.parsed ⟨0, "", "mystery.x", JVal.other, obEmpty⟩)
          = (Match.new Int, [.push .warning], .ok)) ∧
      (splitDots "user.mystery" = ["user", "mystery"] ∧
        "mystery" ∉ knownUserSegments ∧
        wsHandleData envC (Match.new Int)
            (.parsed ⟨0, "", "user.mystery", JVal.other, obEmpty⟩)
          = (Match.new Int, [.push .warning], .ok)) := by
  constructor
  · refine ⟨by decide, by decide, by decide, ?_⟩
    exact ((c9_unrecognized_channel envC (Match.new Int)
        ⟨0, "", "mystery.x", JVal.other, obEmpty⟩ "mystery" ["x"]
        (by decide) (by decide) (by decide)).1
      (by decide)).1 (fun s h => by cases h)
  · refine ⟨by decide, by decide, ?_⟩
    exact (c9_unrecognized_channel envC (Match.new Int)
        ⟨0, "", "user.mystery", JVal.other, obEmpty⟩ "user" ["mystery"]
        (by decide) (by decide) (by decide)).2 rfl "mystery" []
      rfl (by decide)

/-- C8: with the connection established and authenticated endpoints enabled,
a failed login exchange flips authenticated usage off for the session, the
read loop stays started, and `WsConnect` still sends the heartbeat-setup
message, returning that send's result rather than the login error. -/
theorem c8_login_failure_degrades (env : ConnEnv) (e : WsErr)
    (hws : env.wsEnabled = true) (hex : env.exchangeEnabled = true)
    (hdial : env.dialErr = none) (hauth : env.canUseAuth = true)
    (hlogin : env.loginErr = some e) :
    WsConnect env =
      { returned := env.heartbeatSendErr
        readLoopStarted := true
        canUseAuthAfter := false } := by
  simp [WsConnect, hws, hex, hdial, hauth, hlogin]

/-- Concrete run of `c8_login_failure_degrades`: auth failure with a
successful heartbeat send yields a nil return, a running read loop and auth
disabled. -/
theorem c8_login_failure_degrades_witness :
    (let env : ConnEnv :=
      { wsEnabled := true, exchangeEnabled := true, dialErr := none,
        canUseAuth := true,
        loginErr := some (.other "authentication failed"),
        heartbeatSendErr := none }
     WsConnect env =
      { returned := none, readLoopStarted := true,
        canUseAuthAfter := false }) :=
  c8_login_failure_degrades
    { wsEnabled := true, exchangeEnabled := true, dialErr := none,
      canUseAuth := true, loginErr := some (.other "authentication failed"),
      heartbeatSendErr := none }
    (.other "authentication failed") rfl rfl rfl rfl rfl

theorem reconcileLoop_nil_requested {d : Bool} {subs rem : List String}
    (h : (reconcileLoop d subs rem).1 = []) : ∀ s ∈ subs, s ∈ rem := by
  induction subs generalizing rem with
  | nil => intro s hs; cases hs
  | cons s rest ih =>
    intro t ht
    by_cases hs : s ∈ rem
    · simp only [reconcileLoop, hs, if_pos, ite_true] at h
      rcases List.mem_cons.mp ht with rfl | ht
      · exact hs
      · exact List.mem_of_mem_erase (ih h t ht)
    · simp [reconcileLoop, hs] at h

theorem reconcileLoop_nil_acked {d : Bool} {subs rem : List String}
    (h : (reconcileLoop d subs rem).1 = []) : ∀ c ∈ rem, c ∈ subs := by
  induction subs generalizing rem with
  | nil =>
    simp only [reconcileLoop] at h
    intro c hc
    rw [List.map_eq_nil_iff] at h
    subst h
    cases hc
  | cons s rest ih =>
    intro c hc
    by_cases hs : s ∈ rem
    · simp only [reconcileLoop, hs, if_pos, ite_true] at h
      by_cases hcs : c = s
      · exact hcs ▸ List.mem_cons_self _ _
      · exact List.mem_cons_of_mem _
          (ih h c ((List.mem_erase_of_ne hcs).mpr hc))
    · simp [reconcileLoop, hs] at h

theorem reconcileLoop_nil_of {d : Bool} {subs rem : List String}
    (hnd : subs.Nodup) (hndr : rem.Nodup)
    (hs : ∀ s ∈ subs, s ∈ rem) (hr : ∀ c ∈ rem, c ∈ subs) :
    (reconcileLoop d subs rem).1 = [] := by
  induction subs generalizing rem with
  | nil =>
    have : rem = [] := List.eq_nil_iff_forall_not_mem.mpr fun c hc =>
      (List.not_mem_nil c) (hr c hc)
    simp [reconcileLoop, this]
  | cons s rest ih =>
    have hsrem : s ∈ rem := hs s (List.mem_cons_self _ _)
    simp only [reconcileLoop, hsrem, if_pos, ite_true]
    have hnds : s ∉ rest := (List.nodup_cons.mp hnd).1
    refine ih (List.nodup_cons.mp hnd).2 (hndr.erase s) ?_ ?_
    · intro t htr
      have hts : t ≠ s := fun hts => hnds (hts ▸ htr)
      exact (List.mem_erase_of_ne hts).mpr (hs t (List.mem_cons_of_mem _ htr))
    · intro c hc
      have hcr : c ∈ rem := List.mem_of_mem_erase hc
      have hcs : c ≠ s := by
        intro hcs
        subst hcs
        exact (List.Nodup.not_mem_erase hndr) hc
      rcases List.mem_cons.mp (hr c hcr) with rfl | hcrest
      · exact absurd rfl hcs
      · exact hcrest

theorem reconcileLoop_ops {d : Bool} {subs rem ack : List String}
    (hnd : subs.Nodup) (hndr : rem.Nodup)
    (hiff : ∀ t ∈ subs, (t ∈ rem ↔ t ∈ ack)) :
    (reconcileLoop d subs rem).2
      = (subs.filter fun s => decide (s ∈ ack)).map
          (fun s => if d then RegOp.remove s else RegOp.add s) := by
  induction subs generalizing rem with
  | nil => simp [reconcileLoop]
  | cons s rest ih =>
    have hnds : s ∉ rest := (List.nodup_cons.mp hnd).1
    by_cases hsa : s ∈ ack
    · have hsr : s ∈ rem := (hiff s (List.mem_cons_self _ _)).mpr hsa
      simp only [reconcileLoop, hsr, if_pos, ite_true]
      rw [ih (List.nodup_cons.mp hnd).2 (hndr.erase s) ?_]
      · simp [List.filter_cons, hsa]
      · intro t ht
        have hts : t ≠ s := fun hts => hnds (hts ▸ ht)
        rw [List.mem_erase_of_ne hts]
        exact hiff t (List.mem_cons_of_mem _ ht)
    · have hsr : s ∉ rem := fun hsr =>
        hsa ((hiff s (List.mem_cons_self _ _)).mp hsr)
      simp only [reconcileLoop, hsr, if_neg, ite_false]
      rw [ih (List.nodup_cons.mp hnd).2 hndr ?_]
      · simp [List.filter_cons, hsa]
      · intro t ht
        exact hiff t (List.mem_cons_of_mem _ ht)

theorem reconcileLoop_failed_mem {d : Bool} {subs rem ack : List String}
    (hrem : ∀ c ∈ rem, c ∈ ack) :
    ∀ s ∈ subs, s ∉ ack → WsErr.subFailed s ∈ (reconcileLoop d subs rem).1 := by
  induction subs generalizing rem with
  | nil => intro s hs; cases hs
  | cons s' rest ih =>
    intro s hs hsa
    rcases List.mem_cons.mp hs with rfl | hs
    · have hsr : s ∉ rem := fun hsr => hsa (hrem s hsr)
      simp [reconcileLoop, hsr]
    · by_cases hs' : s' ∈ rem
      · simp only [reconcileLoop, hs', if_pos, ite_true]
        exact ih (fun c hc => hrem c (List.mem_of_mem_erase hc)) s hs hsa
      · simp only [reconcileLoop, hs', if_neg, ite_false]
        exact List.mem_cons_of_mem _ (ih hrem s hs hsa)

theorem reconcileLoop_unexpected_mem {d : Bool} {subs rem : List String} :
    ∀ c ∈ rem, c ∉ subs →
      WsErr.unexpectedChannel c ∈ (reconcileLoop d subs rem).1 := by
  induction subs generalizing rem with
  | nil =>
    intro c hc _
    simp only [reconcileLoop]
    exact List.mem_map_of_mem _ hc
  | cons s rest ih =>
    intro c hc hcs
    have hics : c ≠ s := fun h => hcs (h ▸ List.mem_cons_self _ _)
    have hicr : c ∉ rest := fun h => hcs (List.mem_cons_of_mem _ h)
    by_cases hs : s ∈ rem
    · simp only [reconcileLoop, hs, if_pos, ite_true]
      exact ih c ((List.mem_erase_of_ne hics).mpr hc) hicr
    · simp only [reconcileLoop, hs, if_neg, ite_false]
      exact List.mem_cons_of_mem _ (ih c hc hicr)

theorem applyRegOps_add_map : ∀ (cs reg : List String),
    applyRegOps (cs.map RegOp.add) reg = reg ++ cs := by
  intro cs
  induction cs with
  | nil => intro reg; simp [applyRegOps]
  | cons c rest ih =>
    intro reg
    simp [applyRegOps, ih]

/-- C1: for a batch of distinct requested qualified channels, the aggregate
of `handleSubscription`'s reconciliation is empty exactly when every
requested channel is acknowledged and no extra channel is; a requested
channel missing from the acknowledgement contributes its per-channel failure
to the aggregate; an acknowledged channel outside the request set contributes
an unexpected-channel error; and the registry operations are exactly one
add (subscribe) or remove (unsubscribe) per acknowledged requested channel,
so for a subscribe the registry is extended by exactly those channels. -/
theorem c1_subscription_reconciliation (isUnsub : Bool)
    (subs ack : List String) (hnd : subs.Nodup) :
    ((handleSubscriptionReconcile isUnsub subs ack).1 = [] ↔
      ((∀ s ∈ subs, s ∈ ack) ∧ (∀ c ∈ ack, c ∈ subs))) ∧
    (∀ s ∈ subs, s ∉ ack →
      WsErr.subFailed s ∈ (handleSubscriptionReconcile isUnsub subs ack).1) ∧
    (∀ c ∈ ack, c ∉ subs →
      WsErr.unexpectedChannel c
        ∈ (handleSubscriptionReconcile isUnsub subs ack).1) ∧
    ((handleSubscriptionReconcile isUnsub subs ack).2
      = (subs.filter fun s => decide (s ∈ ack)).map
          (fun s => if isUnsub then RegOp.remove s else RegOp.add s)) ∧
    (isUnsub = false → ∀ reg,
      applyRegOps (handleSubscriptionReconcile isUnsub subs ack).2 reg
        = reg ++ subs.filter fun s => decide (s ∈ ack)) := by
  have hiff : ∀ t, t ∈ ack.dedup ↔ t ∈ ack := fun t => List.mem_dedup
  have hops : (handleSubscriptionReconcile isUnsub subs ack).2
      = (subs.filter fun s => decide (s ∈ ack)).map
          (fun s => if isUnsub then RegOp.remove s else RegOp.add s) := by
    simp only [handleSubscriptionReconcile]
    exact reconcileLoop_ops hnd (List.nodup_dedup ack) fun t _ => hiff t
  refine ⟨?_, ?_, ?_, hops, ?_⟩
  · constructor
    · intro h
      simp only [handleSubscriptionReconcile, List.append_eq_nil] at h
      obtain ⟨-, hloop⟩ := h
      constructor
      · intro s hs
        exact (hiff s).mp (reconcileLoop_nil_requested hloop s hs)
      · intro c hc
        exact reconcileLoop_nil_acked hloop c ((hiff c).mpr hc)
    · rintro ⟨hsub, hack⟩
      have hperm : subs.Perm ack.dedup :=
        (List.perm_ext_iff_of_nodup hnd (List.nodup_dedup ack)).mpr
          fun t => ⟨fun ht => (hiff t).mpr (hsub t ht),
            fun ht => hack t ((hiff t).mp ht)⟩
      have hlen : ack.dedup.length = subs.length := (hperm.length_eq).symm
      have hloop : (reconcileLoop isUnsub subs ack.dedup).1 = [] :=
        reconcileLoop_nil_of hnd (List.nodup_dedup ack)
          (fun s hs => (hiff s).mpr (hsub s hs))
          (fun c hc => hack c ((hiff c).mp hc))
      simp [handleSubscriptionReconcile, hlen, hloop]
  · intro s hs hsa
    simp only [handleSubscriptionReconcile]
    exact List.mem_append_right _
      (reconcileLoop_failed_mem (fun c hc => (hiff c).mp hc) s hs hsa)
  · intro c hc hcs
    simp only [handleSubscriptionReconcile]
    exact List.mem_append_right _
      (reconcileLoop_unexpected_mem c ((hiff c).mpr hc) hcs)
  · intro hdir reg
    rw [hops, hdir]
    simp only [Bool.false_eq_true, if_false, ite_false]
    exact applyRegOps_add_map _ reg

/-- Concrete run of `c1_subscription_reconciliation`, the spec's example: 3
requested channels, 2 acknowledged — the aggregate is non-empty, names the
missing channel, and exactly the 2 acknowledged channels are added. -/
theorem c1_subscription_reconciliation_witness :
    (["ticker.A.raw", "ticker.B.raw", "ticker.C.raw"] : List String).Nodup ∧
      (((handleSubscriptionReconcile false
            ["ticker.A.raw", "ticker.B.raw", "ticker.C.raw"]
            ["ticker.A.raw", "ticker.C.raw"]).1 = [] ↔
          ((∀ s ∈ ["ticker.A.raw", "ticker.B.raw", "ticker.C.raw"],
              s ∈ ["ticker.A.raw", "ticker.C.raw"]) ∧
            (∀ c ∈ ["ticker.A.raw", "ticker.C.raw"],
              c ∈ ["ticker.A.raw", "ticker.B.raw", "ticker.C.raw"]))) ∧
        (∀ s ∈ ["ticker.A.raw", "ticker.B.raw", "ticker.C.raw"],
          s ∉ ["ticker.A.raw", "ticker.C.raw"] →
            WsErr.subFailed s ∈ (handleSubscriptionReconcile false
              ["ticker.A.raw", "ticker.B.raw", "ticker.C.raw"]
              ["ticker.A.raw", "ticker.C.raw"]).1) ∧
        (∀ c ∈ ["ticker.A.raw", "ticker.C.raw"],
          c ∉ ["ticker.A.raw", "ticker.B.raw", "ticker.C.raw"] →
            WsErr.unexpectedChannel c ∈ (handleSubscriptionReconcile false
              ["ticker.A.raw", "ticker.B.raw", "ticker.C.raw"]
              ["ticker.A.raw", "ticker.C.raw"]).1) ∧
        ((handleSubscriptionReconcile false
            ["ticker.A.raw", "ticker.B.raw", "ticker.C.raw"]
            ["ticker.A.raw", "ticker.C.raw"]).2
          = ((["ticker.A.raw", "ticker.B.raw", "ticker.C.raw"] : List String).filter
              fun s => decide (s ∈ ["ticker.A.raw", "ticker.C.raw"])).map
                (fun s => if false then RegOp.remove s else RegOp.add s)) ∧
        (false = false → ∀ reg,
          applyRegOps (handleSubscriptionReconcile false
              ["ticker.A.raw", "ticker.B.raw", "ticker.C.raw"]
              ["ticker.A.raw", "ticker.C.raw"]).2 reg
            = reg ++ (["ticker.A.raw", "ticker.B.raw", "ticker.C.raw"] : List String).filter
                fun s => decide (s ∈ ["ticker.A.raw", "ticker.C.raw"]))) :=
  ⟨by decide,
    c1_subscription_reconciliation false
      ["ticker.A.raw", "ticker.B.raw", "ticker.C.raw"]
      ["ticker.A.raw", "ticker.C.raw"] (by decide)⟩

/-- Concrete run of `c10_zero_price_asymmetry` on a zero-price level. -/
theorem c10_zero_price_asymmetry_witness :
    processAsks3 [[JVal.str "new", JVal.num 0, JVal.num 5]]
        = (processAsks3 []).map (fun ls => Level.mk 0 5 :: ls) ∧
      processBids3 [[JVal.str "new", JVal.num 0, JVal.num 5]]
        = processBids3 [] ∧
      processAsks5 [[JVal.num 0, JVal.num 5]] = processAsks5 [] ∧
      processBids5 [[JVal.num 0, JVal.num 5]] = processBids5 [] :=
  c10_zero_price_asymmetry (JVal.str "new") 5 [] []

end GCT
